import Mathlib

/-!
Verification development for the `katsura` trend-aggregation scripts
(`scripts/generate-trends.js`, two versions concatenated in the repository:
the "v7" time-bucketed script and the older "v2" daily script).

The JavaScript is shallowly embedded: every function under scrutiny is
translated into an executable Lean definition over `List Char` / `String`
data.  Effectful reads (the network, the process clock) are made explicit
as parameters, so that dependence or independence of outputs on them is a
provable statement.  Strings are modelled as sequences of Unicode scalar
values; ASCII case-folding is used where the JavaScript `toLowerCase` /
`trim` would additionally fold some exotic code points.
-/

/-- `TrendRecord`: the uniform record shape produced by the fetchers.
Optional fields cover both script versions (`url` in v7; `type`, `news`,
`link`, `description` in v2).  JavaScript objects with an absent property
are modelled with `none`. -/
structure Trend where
  keyword : String
  traffic : String
  source : String
  url : Option String := none
  type : Option String := none
  news : Option String := none
  link : Option String := none
  description : Option String := none
deriving DecidableEq

/-- The time-bucket identifier produced by `getTimestamp()` in v7:
`date` is `YYYY-MM-DD`, `slot` the zero-padded 4-hour slot, and
`full = date ++ "-" ++ slot`. -/
structure TS where
  date : String
  slot : String
  full : String
deriving DecidableEq

/-- ASCII lower-case alphanumerics: exactly the characters kept by the
JavaScript `replace(/[^a-z0-9]/g, '')`. -/
def isKeyChar (c : Char) : Bool :=
  (97 ≤ c.toNat && c.toNat ≤ 122) || (48 ≤ c.toNat && c.toNat ≤ 57)

/-- `s.toLowerCase().replace(/[^a-z0-9]/g, '')` on the character list:
lower-case every character, then keep only `[a-z0-9]`. -/
def normChars (s : String) : List Char :=
  (s.data.map Char.toLower).filter isKeyChar

/-- The normalized keyword used as the deduplication key in the v7 `dedupe`:
`t.keyword.toLowerCase().replace(/[^a-z0-9]/g, '')`. -/
def normKeyword (s : String) : String :=
  String.mk (normChars s)

/-- The deduplication key used in the v2 `mergeTrends`:
`t.keyword.toLowerCase().replace(/[^a-z0-9]/g, '').slice(0, 20)` —
the normalized keyword truncated to its first 20 characters. -/
def mergeKey (s : String) : String :=
  String.mk ((normChars s).take 20)

/-- The filter-with-a-seen-set pass inside the v7 `dedupe` (lines 191-200).
`Array.prototype.filter` visits elements left to right while the callback
mutates `seen`; the mutation is threaded explicitly.  The callback returns
`false` when `!k || k.length < 2` or when `seen.has(k)`, otherwise it adds
`k` to `seen` and returns `true`. -/
def dedupeGo : List Trend → List String → List Trend
  | [], _ => []
  | t :: ts, seen =>
    if normKeyword t.keyword = "" ∨ (normKeyword t.keyword).length < 2 then
      dedupeGo ts seen
    else if normKeyword t.keyword ∈ seen then
      dedupeGo ts seen
    else
      t :: dedupeGo ts (normKeyword t.keyword :: seen)

/-- the v7 `dedupe(arr)`. -/
def dedupe (arr : List Trend) : List Trend :=
  dedupeGo arr []

/-- The inner `for (const t of trends)` loop of the v2 `mergeTrends`
(lines 601-615), threading the `seen` set and returning the records pushed
to `all` together with the final `seen` set.  The push condition is
`!seen.has(key) && key.length > 2` with `key` the 20-character truncated
normalized keyword. -/
def mergeLoop : List Trend → List String → List Trend × List String
  | [], seen => ([], seen)
  | t :: ts, seen =>
    if mergeKey t.keyword ∉ seen ∧ 2 < (mergeKey t.keyword).length then
      ((t :: (mergeLoop ts (mergeKey t.keyword :: seen)).1),
       (mergeLoop ts (mergeKey t.keyword :: seen)).2)
    else
      mergeLoop ts seen

/-- The outer `for (const trends of sources)` loop of the v2 `mergeTrends`:
sources are processed in order, the `seen` set and the `all` accumulator
persisting across sources. -/
def mergeSources : List (List Trend) → List String → List Trend × List String
  | [], seen => ([], seen)
  | src :: rest, seen =>
    ((mergeLoop src seen).1 ++ (mergeSources rest (mergeLoop src seen).2).1,
     (mergeSources rest (mergeLoop src seen).2).2)

/-- the v2 `mergeTrends(sources)`. -/
def mergeTrends (sources : List (List Trend)) : List Trend :=
  (mergeSources sources []).1

/-- Modelled from the wording of the spec (Section 4.3), for comparison with the
code: iterate records in order with a set of already-emitted normalized
keys; append a record iff its full normalized key is non-empty, at least
2 characters long, and not already in the set, marking the key seen. -/
def specAggregateGo : List Trend → List String → List Trend
  | [], _ => []
  | t :: ts, emitted =>
    if normKeyword t.keyword ≠ "" ∧ 2 ≤ (normKeyword t.keyword).length ∧
        normKeyword t.keyword ∉ emitted then
      t :: specAggregateGo ts (normKeyword t.keyword :: emitted)
    else
      specAggregateGo ts emitted

/-- The aggregator as the spec words it, started with an empty emitted set. -/
def specAggregate (records : List Trend) : List Trend :=
  specAggregateGo records []

/-- The single pass that the v2 `mergeTrends` actually performs (the spec
pass amended by what the code forces): the key is the normalized keyword
truncated to 20 characters, and the append threshold is key length ≥ 3. -/
def specAggregateV2Go : List Trend → List String → List Trend
  | [], _ => []
  | t :: ts, emitted =>
    if 3 ≤ (mergeKey t.keyword).length ∧ mergeKey t.keyword ∉ emitted then
      t :: specAggregateV2Go ts (mergeKey t.keyword :: emitted)
    else
      specAggregateV2Go ts emitted

/-- The amended v2 aggregation pass, started with an empty emitted set. -/
def specAggregateV2 (records : List Trend) : List Trend :=
  specAggregateV2Go records []

/-! ### Properties of the v7 `dedupe` pass -/

theorem dedupeGo_keys_nodup :
    ∀ (arr : List Trend) (seen : List String),
      ((dedupeGo arr seen).map fun t => normKeyword t.keyword).Nodup ∧
      ∀ k ∈ (dedupeGo arr seen).map fun t => normKeyword t.keyword, k ∉ seen := by
  intro arr
  induction arr with
  | nil => intro seen; simp [dedupeGo]
  | cons t ts ih =>
    intro seen
    by_cases h1 : normKeyword t.keyword = "" ∨ (normKeyword t.keyword).length < 2
    · simp only [dedupeGo, if_pos h1]
      exact ih seen
    · by_cases h2 : normKeyword t.keyword ∈ seen
      · simp only [dedupeGo, if_neg h1, if_pos h2]
        exact ih seen
      · simp only [dedupeGo, if_neg h1, if_neg h2, List.map_cons, List.nodup_cons]
        obtain ⟨hnodup, hfresh⟩ := ih (normKeyword t.keyword :: seen)
        refine ⟨⟨?_, hnodup⟩, ?_⟩
        · intro hmem
          exact (hfresh _ hmem) (List.mem_cons_self _ _)
        · intro k hk
          rcases List.mem_cons.mp hk with rfl | hk'
          · exact h2
          · intro hks
            exact (hfresh _ hk') (List.mem_cons_of_mem _ hks)

theorem dedupeGo_mem_len :
    ∀ (arr : List Trend) (seen : List String) (t : Trend),
      t ∈ dedupeGo arr seen → 2 ≤ (normKeyword t.keyword).length := by
  intro arr
  induction arr with
  | nil => intro seen t h; simp [dedupeGo] at h
  | cons u ts ih =>
    intro seen t h
    by_cases h1 : normKeyword u.keyword = "" ∨ (normKeyword u.keyword).length < 2
    · simp only [dedupeGo, if_pos h1] at h
      exact ih _ _ h
    · by_cases h2 : normKeyword u.keyword ∈ seen
      · simp only [dedupeGo, if_neg h1, if_pos h2] at h
        exact ih _ _ h
      · simp only [dedupeGo, if_neg h1, if_neg h2] at h
        rcases List.mem_cons.mp h with rfl | h'
        · push_neg at h1
          omega
        · exact ih _ _ h'

theorem dedupeGo_sublist :
    ∀ (arr : List Trend) (seen : List String), (dedupeGo arr seen).Sublist arr := by
  intro arr
  induction arr with
  | nil => intro seen; simp [dedupeGo]
  | cons u ts ih =>
    intro seen
    by_cases h1 : normKeyword u.keyword = "" ∨ (normKeyword u.keyword).length < 2
    · simp only [dedupeGo, if_pos h1]
      exact (ih seen).cons u
    · by_cases h2 : normKeyword u.keyword ∈ seen
      · simp only [dedupeGo, if_neg h1, if_pos h2]
        exact (ih seen).cons u
      · simp only [dedupeGo, if_neg h1, if_neg h2]
        exact (ih _).cons₂ u

theorem dedupeGo_eq_spec :
    ∀ (arr : List Trend) (seen : List String), dedupeGo arr seen = specAggregateGo arr seen := by
  intro arr
  induction arr with
  | nil => intro seen; rfl
  | cons u ts ih =>
    intro seen
    by_cases h1 : normKeyword u.keyword = "" ∨ (normKeyword u.keyword).length < 2
    · simp only [dedupeGo, specAggregateGo, if_pos h1]
      rw [if_neg]
      · exact ih seen
      · rintro ⟨hne, hlen, -⟩
        rcases h1 with h | h
        · exact hne h
        · omega
    · by_cases h2 : normKeyword u.keyword ∈ seen
      · simp only [dedupeGo, specAggregateGo, if_neg h1, if_pos h2]
        rw [if_neg]
        · exact ih seen
        · rintro ⟨-, -, hni⟩
          exact hni h2
      · have h1' := h1
        push_neg at h1'
        simp only [dedupeGo, specAggregateGo, if_neg h1, if_neg h2]
        rw [if_pos ⟨h1'.1, h1'.2, h2⟩, ih]

/-! ### Properties of the v2 `mergeTrends` pass -/

theorem length_mk (l : List Char) : (String.mk l).length = l.length := rfl

theorem mergeKey_length_le (s : String) : (mergeKey s).length ≤ (normKeyword s).length := by
  show ((normChars s).take 20).length ≤ (String.mk (normChars s)).length
  rw [length_mk, List.length_take]
  omega

theorem mergeKey_congr {a b : String} (h : normKeyword a = normKeyword b) :
    mergeKey a = mergeKey b := by
  have hd : normChars a = normChars b := congrArg String.data h
  unfold mergeKey
  rw [hd]

theorem mergeLoop_keys_nodup :
    ∀ (ts : List Trend) (seen : List String),
      (((mergeLoop ts seen).1).map fun t => mergeKey t.keyword).Nodup ∧
      ∀ k ∈ ((mergeLoop ts seen).1).map fun t => mergeKey t.keyword, k ∉ seen := by
  intro ts
  induction ts with
  | nil => intro seen; simp [mergeLoop]
  | cons t ts ih =>
    intro seen
    by_cases hc : mergeKey t.keyword ∉ seen ∧ 2 < (mergeKey t.keyword).length
    · simp only [mergeLoop, if_pos hc, List.map_cons, List.nodup_cons]
      obtain ⟨hnodup, hfresh⟩ := ih (mergeKey t.keyword :: seen)
      refine ⟨⟨?_, hnodup⟩, ?_⟩
      · intro hmem
        exact (hfresh _ hmem) (List.mem_cons_self _ _)
      · intro k hk
        rcases List.mem_cons.mp hk with rfl | hk'
        · exact hc.1
        · intro hks
          exact (hfresh _ hk') (List.mem_cons_of_mem _ hks)
    · simp only [mergeLoop, if_neg hc]
      exact ih seen

theorem mergeLoop_mem_len :
    ∀ (ts : List Trend) (seen : List String) (t : Trend),
      t ∈ (mergeLoop ts seen).1 → 3 ≤ (mergeKey t.keyword).length := by
  intro ts
  induction ts with
  | nil => intro seen t h; simp [mergeLoop] at h
  | cons u ts ih =>
    intro seen t h
    by_cases hc : mergeKey u.keyword ∉ seen ∧ 2 < (mergeKey u.keyword).length
    · simp only [mergeLoop, if_pos hc] at h
      rcases List.mem_cons.mp h with rfl | h'
      · omega
      · exact ih _ _ h'
    · simp only [mergeLoop, if_neg hc] at h
      exact ih _ _ h

theorem mergeLoop_sublist :
    ∀ (ts : List Trend) (seen : List String), ((mergeLoop ts seen).1).Sublist ts := by
  intro ts
  induction ts with
  | nil => intro seen; simp [mergeLoop]
  | cons u ts ih =>
    intro seen
    by_cases hc : mergeKey u.keyword ∉ seen ∧ 2 < (mergeKey u.keyword).length
    · simp only [mergeLoop, if_pos hc]
      exact (ih _).cons₂ u
    · simp only [mergeLoop, if_neg hc]
      exact (ih seen).cons u

theorem mergeLoop_eq_specV2 :
    ∀ (ts : List Trend) (seen : List String),
      (mergeLoop ts seen).1 = specAggregateV2Go ts seen := by
  intro ts
  induction ts with
  | nil => intro seen; rfl
  | cons u ts ih =>
    intro seen
    by_cases hc : mergeKey u.keyword ∉ seen ∧ 2 < (mergeKey u.keyword).length
    · simp only [mergeLoop, specAggregateV2Go, if_pos hc]
      rw [if_pos ⟨by omega, hc.1⟩, ih]
    · simp only [mergeLoop, specAggregateV2Go, if_neg hc]
      rw [if_neg, ih]
      rintro ⟨hlen, hni⟩
      exact hc ⟨hni, by omega⟩

theorem mergeLoop_seen_len :
    ∀ (ts : List Trend) (seen : List String),
      ((mergeLoop ts seen).2).length = seen.length + ((mergeLoop ts seen).1).length := by
  intro ts
  induction ts with
  | nil => intro seen; simp [mergeLoop]
  | cons u ts ih =>
    intro seen
    by_cases hc : mergeKey u.keyword ∉ seen ∧ 2 < (mergeKey u.keyword).length
    · simp only [mergeLoop, if_pos hc, List.length_cons]
      rw [ih]
      simp
      omega
    · simp only [mergeLoop, if_neg hc]
      exact ih seen

theorem mergeLoop_seen_mono :
    ∀ (ts : List Trend) (seen : List String) (k : String),
      k ∈ seen → k ∈ (mergeLoop ts seen).2 := by
  intro ts
  induction ts with
  | nil => intro seen k hk; simpa [mergeLoop] using hk
  | cons u ts ih =>
    intro seen k hk
    by_cases hc : mergeKey u.keyword ∉ seen ∧ 2 < (mergeKey u.keyword).length
    · simp only [mergeLoop, if_pos hc]
      exact ih _ _ (List.mem_cons_of_mem _ hk)
    · simp only [mergeLoop, if_neg hc]
      exact ih _ _ hk

theorem mergeLoop_seen_mem :
    ∀ (ts : List Trend) (seen : List String) (t : Trend),
      t ∈ ts → 2 < (mergeKey t.keyword).length →
      mergeKey t.keyword ∈ (mergeLoop ts seen).2 := by
  intro ts
  induction ts with
  | nil => intro seen t h; simp at h
  | cons u ts ih =>
    intro seen t ht hlen
    by_cases hc : mergeKey u.keyword ∉ seen ∧ 2 < (mergeKey u.keyword).length
    · simp only [mergeLoop, if_pos hc]
      rcases List.mem_cons.mp ht with rfl | ht'
      · exact mergeLoop_seen_mono _ _ _ (List.mem_cons_self _ _)
      · exact ih _ _ ht' hlen
    · simp only [mergeLoop, if_neg hc]
      rcases List.mem_cons.mp ht with rfl | ht'
      · have hin : mergeKey t.keyword ∈ seen := by
          by_contra hni
          exact hc ⟨hni, hlen⟩
        exact mergeLoop_seen_mono _ _ _ hin
      · exact ih _ _ ht' hlen

theorem mergeLoop_append :
    ∀ (a b : List Trend) (seen : List String),
      mergeLoop (a ++ b) seen =
        ((mergeLoop a seen).1 ++ (mergeLoop b (mergeLoop a seen).2).1,
         (mergeLoop b (mergeLoop a seen).2).2) := by
  intro a
  induction a with
  | nil => intro b seen; simp [mergeLoop]
  | cons u ts ih =>
    intro b seen
    by_cases hc : mergeKey u.keyword ∉ seen ∧ 2 < (mergeKey u.keyword).length
    · simp only [List.cons_append, mergeLoop, if_pos hc, List.append_eq, ih]
    · simp only [List.cons_append, mergeLoop, if_neg hc, List.append_eq, ih]

theorem mergeSources_eq_join :
    ∀ (srcs : List (List Trend)) (seen : List String),
      mergeSources srcs seen = mergeLoop srcs.flatten seen := by
  intro srcs
  induction srcs with
  | nil => intro seen; simp [mergeSources, mergeLoop]
  | cons s rest ih =>
    intro seen
    simp only [mergeSources, List.flatten_cons, mergeLoop_append, ih]

theorem mergeTrends_eq_loop (sources : List (List Trend)) :
    mergeTrends sources = (mergeLoop sources.flatten []).1 := by
  unfold mergeTrends
  rw [mergeSources_eq_join]

theorem mergeTrends_norm_nodup (sources : List (List Trend)) :
    ((mergeTrends sources).map fun t => normKeyword t.keyword).Nodup := by
  have h := (mergeLoop_keys_nodup (sources.flatten) []).1
  rw [mergeTrends_eq_loop]
  have hfactor : (((mergeLoop sources.flatten []).1.map fun t => normKeyword t.keyword).map
      fun s => String.mk (s.data.take 20)) =
      ((mergeLoop sources.flatten []).1.map fun t => mergeKey t.keyword) := by
    rw [List.map_map]
    rfl
  exact List.Nodup.of_map _ (by rw [hfactor]; exact h)

/-! ### Claim C1 -/

/-- C1: For every input list of records, the aggregator output (`dedupe` in
the v7 version, `mergeTrends` in the v2 version) contains no two records whose
normalized keywords (lowercased, non-alphanumeric characters stripped) are
equal: the list of normalized keywords of the output has no duplicates. -/
theorem aggregator_output_keys_unique :
    (∀ arr : List Trend, ((dedupe arr).map fun t => normKeyword t.keyword).Nodup) ∧
    (∀ sources : List (List Trend),
      ((mergeTrends sources).map fun t => normKeyword t.keyword).Nodup) :=
  ⟨fun arr => (dedupeGo_keys_nodup arr []).1, fun sources => mergeTrends_norm_nodup sources⟩

/-! ### Claim C2 -/

/-- A concrete record whose keyword normalizes to the 2-character key "ab". -/
def abRecord : Trend := { keyword := "ab", traffic := "", source := "B" }

/-- C2 (amended): every record in either aggregator output has a normalized
keyword of length at least 2, and any record whose normalized keyword is
shorter than 2 characters is discarded; but the two versions differ at length
exactly 2: the v7 `dedupe` keeps a fresh record whose normalized keyword has
length exactly 2, while the v2 `mergeTrends` discards it (its `key.length > 2`
test demands length at least 3 of the truncated key). -/
theorem aggregator_min_keyword_length :
    (∀ (arr : List Trend) (t : Trend), t ∈ dedupe arr → 2 ≤ (normKeyword t.keyword).length) ∧
    (∀ (sources : List (List Trend)) (t : Trend),
      t ∈ mergeTrends sources → 2 ≤ (normKeyword t.keyword).length) ∧
    dedupe [abRecord] = [abRecord] ∧ mergeTrends [[abRecord]] = [] := by
  refine ⟨fun arr t h => dedupeGo_mem_len arr [] t h, fun sources t h => ?_, by decide, by decide⟩
  rw [mergeTrends_eq_loop] at h
  have h3 := mergeLoop_mem_len _ _ _ h
  have hle := mergeKey_length_le t.keyword
  omega

theorem aggregator_min_keyword_length_witness :
    2 ≤ (normKeyword abRecord.keyword).length :=
  aggregator_min_keyword_length.1 [abRecord] abRecord (by decide)

/-- C2 counterexample: a record whose normalized keyword has length exactly 2
and is not a duplicate is nevertheless discarded by the v2 `mergeTrends`,
contradicting the claim that such a record is kept by the aggregator. -/
theorem mergeTrends_drops_length_two :
    (normKeyword abRecord.keyword).length = 2 ∧ mergeTrends [[abRecord]] = [] := by
  decide

/-! ### Claim C3 -/

/-- A record whose keyword is 21 repetitions of the character a. -/
def longARecord : Trend := { keyword := "aaaaaaaaaaaaaaaaaaaaa", traffic := "", source := "A" }

/-- A record whose keyword is 20 repetitions of a followed by b. -/
def longBRecord : Trend := { keyword := "aaaaaaaaaaaaaaaaaaaab", traffic := "", source := "B" }

/-- C3 counterexample: the v2 `mergeTrends` deduplicates on the normalized key
truncated to its first 20 characters, so two records with distinct
21-character normalized keywords sharing a 20-character prefix are treated as
duplicates and the second is dropped — while the claimed pass, which tests
membership of the full normalized key, would append both. -/
theorem mergeTrends_truncated_key_collision :
    normKeyword longARecord.keyword ≠ normKeyword longBRecord.keyword ∧
    mergeTrends [[longARecord, longBRecord]] = [longARecord] := by
  decide

/-- C3 (amended): the v7 `dedupe` is exactly the claimed single order-preserving
pass (append iff the full normalized key is non-empty, at least 2 characters
long and unseen); the v2 `mergeTrends` is the same kind of single pass but on
the normalized key truncated to 20 characters and with append threshold
length ≥ 3.  Both outputs are subsequences of the input in input order. -/
theorem aggregator_single_pass :
    (∀ arr : List Trend, dedupe arr = specAggregate arr ∧ (dedupe arr).Sublist arr) ∧
    (∀ sources : List (List Trend),
      mergeTrends sources = specAggregateV2 sources.flatten ∧
      (mergeTrends sources).Sublist sources.flatten) := by
  constructor
  · intro arr
    exact ⟨dedupeGo_eq_spec arr [], dedupeGo_sublist arr []⟩
  · intro sources
    rw [mergeTrends_eq_loop]
    exact ⟨mergeLoop_eq_specV2 _ _, mergeLoop_sublist _ _⟩

/-! ### Claim C4 -/

/-- The first record of the concrete example in the spec. -/
def fooBarARecord : Trend := { keyword := "Foo Bar", traffic := "", source := "A" }

/-- The second record of the concrete example in the spec. -/
def fooBarBRecord : Trend := { keyword := "foo-bar!", traffic := "", source := "B" }

/-- The third record of the concrete example in the spec. -/
def bazCRecord : Trend := { keyword := "Baz", traffic := "", source := "C" }

/-- C4: on the concrete input `[{Foo Bar, A}, {foo-bar!, B}, {Baz, C}]` in
that priority order, both aggregators return exactly the first and third
records (the second is dropped as a duplicate of the first after
normalization); and a record whose keyword normalizes to a single character
never appears in either aggregator output, regardless of source. -/
theorem aggregator_concrete_example :
    dedupe [fooBarARecord, fooBarBRecord, bazCRecord] = [fooBarARecord, bazCRecord] ∧
    mergeTrends [[fooBarARecord], [fooBarBRecord], [bazCRecord]] = [fooBarARecord, bazCRecord] ∧
    (∀ (arr : List Trend) (t : Trend), t ∈ dedupe arr → (normKeyword t.keyword).length ≠ 1) ∧
    (∀ (sources : List (List Trend)) (t : Trend),
      t ∈ mergeTrends sources → (normKeyword t.keyword).length ≠ 1) := by
  refine ⟨by decide, by decide, fun arr t h => ?_, fun sources t h => ?_⟩
  · have := dedupeGo_mem_len arr [] t h
    omega
  · rw [mergeTrends_eq_loop] at h
    have h3 := mergeLoop_mem_len _ _ _ h
    have hle := mergeKey_length_le t.keyword
    omega

theorem aggregator_concrete_example_witness :
    (normKeyword fooBarARecord.keyword).length ≠ 1 :=
  aggregator_concrete_example.2.2.1 [fooBarARecord] fooBarARecord (by decide)

/-! ### Claim C10 -/

/-- the v2 `getManualTrends()` (lines 589-598): the hardcoded 5-entry curated
list of emerging keywords. -/
def getManualTrends : List Trend :=
  [{ keyword := "DeepSeek", traffic := "Rising", source := "Manual", type := some "emerging" },
   { keyword := "Claude 3.5", traffic := "Rising", source := "Manual", type := some "emerging" },
   { keyword := "Sora AI", traffic := "Rising", source := "Manual", type := some "emerging" },
   { keyword := "Gemini 2.0", traffic := "Rising", source := "Manual", type := some "emerging" },
   { keyword := "Apple Vision Pro", traffic := "Rising", source := "Manual", type := some "emerging" }]

/-- The merge-and-fallback step of the v2 `main` (lines 859-866): merge the four
fetched lists plus the manual list; if fewer than 5 trends result, re-append
the manual list as a fallback. -/
def mainTrendsV2 (google wiki github hn : List Trend) : List Trend :=
  if (mergeTrends [google, wiki, github, hn, getManualTrends]).length < 5 then
    mergeTrends [google, wiki, github, hn, getManualTrends] ++ getManualTrends
  else
    mergeTrends [google, wiki, github, hn, getManualTrends]

theorem merge_with_manual_ge_five (google wiki github hn : List Trend) :
    5 ≤ (mergeTrends [google, wiki, github, hn, getManualTrends]).length := by
  rw [mergeTrends_eq_loop]
  set L := ([google, wiki, github, hn, getManualTrends] : List (List Trend)).flatten with hL
  have hlen : ∀ t ∈ getManualTrends, 2 < (mergeKey t.keyword).length := by decide
  have hkeys : ∀ t ∈ getManualTrends, mergeKey t.keyword ∈ (mergeLoop L []).2 := by
    intro t ht
    refine mergeLoop_seen_mem L [] t ?_ (hlen t ht)
    rw [hL, List.mem_flatten]
    exact ⟨getManualTrends, by simp, ht⟩
  have hsub : (getManualTrends.map fun t => mergeKey t.keyword).toFinset ⊆
      ((mergeLoop L []).2).toFinset := by
    intro x hx
    rw [List.mem_toFinset] at hx
    obtain ⟨t, ht, rfl⟩ := List.mem_map.mp hx
    rw [List.mem_toFinset]
    exact hkeys t ht
  have hcard5 : (getManualTrends.map fun t => mergeKey t.keyword).toFinset.card = 5 := by decide
  have h5 : 5 ≤ ((mergeLoop L []).2).toFinset.card := by
    rw [← hcard5]
    exact Finset.card_le_card hsub
  have hcardlen := List.toFinset_card_le (l := (mergeLoop L []).2)
  have hout := mergeLoop_seen_len L []
  simp only [List.length_nil] at hout
  omega

/-- C10: for every combination of fetcher outputs, `mergeTrends` applied to
the four fetched lists plus the 5-entry curated manual list returns at least
5 records (each of the 5 distinct manual keys is represented in the output,
either by the manual record itself or by an earlier record with the same
key), so the fallback branch of `main` that re-appends the manual list is
unreachable and the final list never holds a normalized keyword — in
particular a manual entry — twice. -/
theorem v2_fallback_unreachable (google wiki github hn : List Trend) :
    5 ≤ (mergeTrends [google, wiki, github, hn, getManualTrends]).length ∧
    mainTrendsV2 google wiki github hn = mergeTrends [google, wiki, github, hn, getManualTrends] ∧
    ((mainTrendsV2 google wiki github hn).map fun t => normKeyword t.keyword).Nodup := by
  have h5 := merge_with_manual_ge_five google wiki github hn
  refine ⟨h5, ?_, ?_⟩
  · unfold mainTrendsV2
    rw [if_neg (by omega)]
  · unfold mainTrendsV2
    rw [if_neg (by omega)]
    exact mergeTrends_norm_nodup _

/-! ### Network model and shared string utilities

The network is modelled by the settled outcome of one HTTP request: a
transport error, a timeout, or a response carrying a status code and a body
(for the v2 `fetchURL`, which follows 3xx redirects, the outcome of the final
request of the chain). -/

/-- The settled outcome of a single HTTP retrieval. -/
inductive NetResult where
  | netError : NetResult
  | timeout : NetResult
  | response (status : Nat) (body : String) : NetResult
deriving DecidableEq

/-- The value the v7 `safeFetch` resolves with.  On a transport error or
timeout it resolves `{ ok: false }` (the absent `data` property is modelled
as the empty string, it is never read); on any response — the status code is
never inspected — it resolves `{ ok: true, data }`. -/
structure FetchRes where
  ok : Bool
  data : String
deriving DecidableEq

/-- the v7 `safeFetch(url, timeout)` (lines 26-45). -/
def safeFetch : NetResult → FetchRes
  | NetResult.netError => ⟨false, ""⟩
  | NetResult.timeout => ⟨false, ""⟩
  | NetResult.response _ body => ⟨true, body⟩

/-- the v2 `fetchURL(url)` (lines 429-445): rejects on a transport error or
timeout, resolves with the body of any non-redirect response — the status
code is never checked against 2xx. -/
def fetchURL : NetResult → Except String String
  | NetResult.netError => Except.error "network error"
  | NetResult.timeout => Except.error "Timeout"
  | NetResult.response _ body => Except.ok body

/-- JavaScript `String.prototype.trim` on the character list (ASCII
whitespace model). -/
def trimChars (l : List Char) : List Char :=
  ((l.dropWhile Char.isWhitespace).reverse.dropWhile Char.isWhitespace).reverse

/-- JavaScript `split(sep)` for a single-character separator. -/
def splitChars (sep : Char) : List Char → List (List Char)
  | [] => [[]]
  | c :: rest =>
    if c = sep then [] :: splitChars sep rest
    else
      match splitChars sep rest with
      | [] => [[c]]
      | p :: ps => (c :: p) :: ps

/-- JavaScript `parts.join(sep)` for a single-character separator. -/
def joinChar (sep : Char) : List (List Char) → List Char
  | [] => []
  | [p] => p
  | p :: ps => p ++ sep :: joinChar sep ps

/-- Splits `s` at the first occurrence of `pat`: returns the part before the
occurrence and the part after it, or `none` when `pat` does not occur. -/
def splitFirst (pat : List Char) : List Char → Option (List Char × List Char)
  | [] => if pat.isPrefixOf ([] : List Char) then some ([], []) else none
  | c :: rest =>
    if pat.isPrefixOf (c :: rest) then some ([], (c :: rest).drop pat.length)
    else (splitFirst pat rest).map fun p => (c :: p.1, p.2)

/-- JavaScript `String.prototype.replace` with a plain-string pattern:
replaces only the first occurrence (here, by nothing). -/
def removeFirst (s : String) (pat : String) : String :=
  match splitFirst pat.data s.data with
  | some p => String.mk (p.1 ++ p.2)
  | none => s

/-- JavaScript `String.prototype.slice(a, b)` for `0 ≤ a ≤ b` (code points
model). -/
def sliceStr (s : String) (a b : Nat) : String :=
  String.mk ((s.data.drop a).take (b - a))

/-- JavaScript `String.prototype.endsWith`. -/
def jsEndsWith (s suffix : String) : Bool :=
  suffix.data.isSuffixOf s.data

/-! ### v2 `fetchGoogleTrendsRSS` (lines 448-482)

The regex scans are embedded as deterministic scanners with the exact
leftmost-match / lazy-quantifier semantics of the JavaScript patterns. -/

/-- The shortest prefix of `s` containing no line terminator that is
immediately followed by `pat` — the semantics of the lazy `(.*?)` (dot does
not match line terminators) followed by a literal.  Returns the captured
prefix and the remainder after the literal. -/
def lazyDotUpTo (pat : List Char) : List Char → Option (List Char × List Char)
  | [] => if pat.isPrefixOf ([] : List Char) then some ([], []) else none
  | c :: rest =>
    if pat.isPrefixOf (c :: rest) then some ([], (c :: rest).drop pat.length)
    else if c.toNat = 10 ∨ c.toNat = 13 ∨ c.toNat = 8232 ∨ c.toNat = 8233 then none
    else (lazyDotUpTo pat rest).map fun p => (c :: p.1, p.2)

/-- One attempt, at the current position, of the pattern
`open ([^<]+) close`: the literal `open`, a non-empty greedy run of
non-`<` characters, then the literal `close`.  Returns the captured run. -/
def tryTagAt (openT closeT s : List Char) : Option (List Char) :=
  if openT.isPrefixOf s then
    if (s.drop openT.length).takeWhile (fun c => c ≠ '<') ≠ ([] : List Char) ∧
        closeT.isPrefixOf ((s.drop openT.length).drop
          (((s.drop openT.length).takeWhile (fun c => c ≠ '<')).length)) then
      some ((s.drop openT.length).takeWhile (fun c => c ≠ '<'))
    else none
  else none

/-- Leftmost match of `open ([^<]+) close` in `s` (the `String.match`
semantics): try every position from the left. -/
def findTag (openT closeT : List Char) : List Char → Option (List Char)
  | [] => none
  | c :: rest =>
    match tryTagAt openT closeT (c :: rest) with
    | some r => some r
    | none => findTag openT closeT rest

/-- One attempt, at the current position, of `open <!\[CDATA\[(.*?)\]\] close`
style patterns: the literal `openT` (which includes the CDATA opener) then a
lazy dot-run up to the literal `closeT`. -/
def tryCdataAt (openT closeT s : List Char) : Option (List Char) :=
  if openT.isPrefixOf s then
    match lazyDotUpTo closeT (s.drop openT.length) with
    | some p => some p.1
    | none => none
  else none

/-- Leftmost match of a CDATA pattern in `s`. -/
def findCdata (openT closeT : List Char) : List Char → Option (List Char)
  | [] => none
  | c :: rest =>
    match tryCdataAt openT closeT (c :: rest) with
    | some r => some r
    | none => findCdata openT closeT rest

/-- One attempt of the v2 `titleRegex`
`/<title><!\[CDATA\[(.*?)\]\]><\/title>|<title>([^<]+)<\/title>/` at the
current position: the CDATA alternative is tried first, then the plain
alternative at the same position.  Returns the capture groups `(1, 2)`;
the group of the alternative that did not match is `undefined` (`none`). -/
def tryTitleAt (s : List Char) : Option (Option (List Char) × Option (List Char)) :=
  match tryCdataAt "<title><![CDATA[".data "]]></title>".data s with
  | some g1 => some (some g1, none)
  | none =>
    match tryTagAt "<title>".data "</title>".data s with
    | some g2 => some (none, some g2)
    | none => none

/-- Leftmost match of `titleRegex` in `s`. -/
def findTitle : List Char → Option (Option (List Char) × Option (List Char))
  | [] => none
  | c :: rest =>
    match tryTitleAt (c :: rest) with
    | some r => some r
    | none => findTitle rest

/-- The lazy `itemRegex` `/<item>([\s\S]*?)<\/item>/g` loop with a fuel
argument for structural recursion; each iteration consumes at least the two
literals, so `s.length + 1` units of fuel (supplied by `itemSegments`) are
never exhausted. -/
def itemSegmentsF : Nat → List Char → List (List Char)
  | 0, _ => []
  | fuel + 1, s =>
    match splitFirst "<item>".data s with
    | none => []
    | some p1 =>
      match splitFirst "</item>".data p1.2 with
      | none => []
      | some p2 => p2.1 :: itemSegmentsF fuel p2.2

/-- All `[\s\S]*?` captures of `itemRegex` over the body, in order. -/
def itemSegments (s : List Char) : List (List Char) :=
  itemSegmentsF (s.length + 1) s

/-- JavaScript `a || b` on two optional captures: an absent or empty first
group falls through to the second. -/
def jsOrElse (g1 g2 : Option (List Char)) : Option (List Char) :=
  match g1 with
  | some l => if l = [] then g2 else some l
  | none => g2

/-- The per-item body of the `while` loop of `fetchGoogleTrendsRSS`: extract
title (CDATA or plain), traffic and news-item title, and push a record when
the title is present and non-blank.  The pushed keyword is `title.trim()`. -/
def rssItemTrend (item : List Char) : Option Trend :=
  match jsOrElse (match findTitle item with
                  | some g => g.1
                  | none => none)
                 (match findTitle item with
                  | some g => g.2
                  | none => none) with
  | none => none
  | some title =>
    if title ≠ ([] : List Char) ∧ trimChars title ≠ ([] : List Char) then
      some { keyword := String.mk (trimChars title)
           , traffic := String.mk ((findTag "<ht:approx_traffic>".data
                "</ht:approx_traffic>".data item).getD [])
           , source := "Google"
           , type := some "trending"
           , news := some (String.mk ((findCdata
                "<ht:news_item_title><![CDATA[".data
                "]]></ht:news_item_title>".data item).getD [])) }
    else none

/-- the v2 `fetchGoogleTrendsRSS()`: on a rejected fetch the `catch` arm
returns the empty list; otherwise one record per RSS `<item>` with a usable
title — without any cap on the count. -/
def fetchGoogleTrendsRSS (r : NetResult) : List Trend :=
  match fetchURL r with
  | Except.error _ => []
  | Except.ok body => (itemSegments body.data).filterMap rssItemTrend

/-! ### v7 `fetchXTrends` (lines 52-79) -/

/-- An uppercase hexadecimal digit. -/
def hexDigitUpper (n : Nat) : Char :=
  if n < 10 then Char.ofNat (48 + n) else Char.ofNat (55 + n)

/-- A lowercase hexadecimal digit. -/
def hexDigitLower (n : Nat) : Char :=
  if n < 10 then Char.ofNat (48 + n) else Char.ofNat (87 + n)

/-- The UTF-8 encoding of a Unicode scalar value, as byte values. -/
def utf8Bytes (n : Nat) : List Nat :=
  if n < 128 then [n]
  else if n < 2048 then [192 + n / 64, 128 + n % 64]
  else if n < 65536 then [224 + n / 4096, 128 + (n / 64) % 64, 128 + n % 64]
  else [240 + n / 262144, 128 + (n / 4096) % 64, 128 + (n / 64) % 64, 128 + n % 64]

/-- The characters the JavaScript `encodeURIComponent` leaves unescaped:
alphanumerics together with minus, underscore, dot, bang, tilde, star,
apostrophe and the parentheses. -/
def isUriSafe (c : Char) : Bool :=
  (65 ≤ c.toNat && c.toNat ≤ 90) || (97 ≤ c.toNat && c.toNat ≤ 122) ||
  (48 ≤ c.toNat && c.toNat ≤ 57) ||
  [45, 95, 46, 33, 126, 42, 39, 40, 41].contains c.toNat

/-- JavaScript `encodeURIComponent`: percent-encode the UTF-8 bytes of every
character outside the unescaped set, with uppercase hex digits. -/
def encodeURIComponent (s : String) : String :=
  String.mk (s.data.flatMap fun c =>
    if isUriSafe c then [c]
    else (utf8Bytes c.toNat).flatMap fun b => ['%', hexDigitUpper (b / 16), hexDigitUpper (b % 16)])

/-- Case-insensitive literal match (`/i` flag): `pat` is given lowercase and
each subject character is lowercased before comparison. -/
def ciIsPrefix : List Char → List Char → Bool
  | [], _ => true
  | _ :: _, [] => false
  | p :: ps, c :: cs => p == c.toLower && ciIsPrefix ps cs

/-- The deterministic tail of one `fetchXTrends` regex attempt, entered just
after the `href="/united-states/trend/` literal: `[^"]*` (greedy, then the
literal `"` — deterministic since a shorter run cannot be followed by `"`),
`[^>]*` then `>` (likewise), the capture `([^<]+)` (greedy, non-empty; a
shorter run cannot be followed by `<`), and the literal `</a>`
(case-insensitively).  Returns the capture and the rest of the subject after
the match. -/
def xAfterHref (s : List Char) : Option (List Char × List Char) :=
  match s.drop ((s.takeWhile (fun c => c.toNat ≠ 34)).length) with
  | [] => none
  | q :: s3 =>
    if q ≠ '"' then none
    else
      match s3.drop ((s3.takeWhile (fun c => c ≠ '>')).length) with
      | [] => none
      | gt :: s5 =>
        if gt ≠ '>' then none
        else
          if s5.takeWhile (fun c => c ≠ '<') = ([] : List Char) then none
          else
            if ciIsPrefix "</a>".data (s5.drop ((s5.takeWhile (fun c => c ≠ '<')).length)) then
              some (s5.takeWhile (fun c => c ≠ '<'),
                    (s5.drop ((s5.takeWhile (fun c => c ≠ '<')).length)).drop 4)
            else none

/-- Backtracking of the greedy `[^>]*` before the `href` literal: try the
literal at offset `i` (the largest offset first, as greedy matching does) and
fall back to smaller offsets.  `rest` is the subject just after `<a`. -/
def xTryHref (rest : List Char) : Nat → Option (List Char × List Char)
  | 0 =>
    if ciIsPrefix "href=\"/united-states/trend/".data rest then
      xAfterHref (rest.drop 27)
    else none
  | i + 1 =>
    match (if ciIsPrefix "href=\"/united-states/trend/".data (rest.drop (i + 1)) then
             xAfterHref (rest.drop (i + 1 + 27))
           else none) with
    | some r => some r
    | none => xTryHref rest i

/-- One attempt of the `fetchXTrends` regex
`/<a[^>]*href="\/united-states\/trend\/[^"]*"[^>]*>([^<]+)<\/a>/gi` at the
current position: the literal `<a`, then the greedy `[^>]*` whose length
bounds the offset at which the `href` literal may start. -/
def xTryAt (s : List Char) : Option (List Char × List Char) :=
  if ciIsPrefix "<a".data s then
    xTryHref (s.drop 2) ((s.drop 2).takeWhile (fun c => c ≠ '>')).length
  else none

/-- The `matchAll` loop over the subject: at each position try the pattern;
on a match emit the capture and resume after the match, otherwise advance one
position.  Fuel-based structural recursion; every step consumes at least one
character, so the fuel supplied by `xMatches` is never exhausted. -/
def xMatchesF : Nat → List Char → List (List Char)
  | 0, _ => []
  | fuel + 1, s =>
    match xTryAt s with
    | some r => r.1 :: xMatchesF fuel r.2
    | none =>
      match s with
      | [] => []
      | _ :: rest => xMatchesF fuel rest

/-- All captures of the `fetchXTrends` regex over the body, in order. -/
def xMatches (s : List Char) : List (List Char) :=
  xMatchesF (s.length + 1) s

/-- The record `fetchXTrends` pushes for the trimmed topic `m`: the fixed
traffic emoji, the fixed source tag, and a search deep link built with
`encodeURIComponent`. -/
def xRecord (m : List Char) : Trend :=
  { keyword := String.mk (trimChars m)
  , traffic := "🔥"
  , source := "X"
  , url := some ("https://x.com/search?q=" ++ encodeURIComponent (String.mk (trimChars m))) }

/-- The `for (const m of matches)` loop of `fetchXTrends`: trim the capture,
skip empty/short/already-seen topics (compared lowercased) and the skip-list
entries, otherwise push a record; stop once 50 records are collected. -/
def xLoop : List (List Char) → List String → List Trend → List Trend
  | [], _, acc => acc
  | m :: ms, seen, acc =>
    if trimChars m = ([] : List Char) ∨ (trimChars m).length < 2 ∨
        String.mk ((trimChars m).map Char.toLower) ∈ seen then
      xLoop ms seen acc
    else if String.mk ((trimChars m).map Char.toLower) ∈
        (["twitter", "trending", "trends"] : List String) then
      xLoop ms seen acc
    else
      if 50 ≤ (acc ++ [xRecord m]).length then
        acc ++ [xRecord m]
      else
        xLoop ms (String.mk ((trimChars m).map Char.toLower) :: seen) (acc ++ [xRecord m])

/-- the v7 `fetchXTrends()`: empty on a failed fetch, otherwise the capped
dedup-and-skip loop over the regex matches. -/
def fetchXTrends (r : NetResult) : List Trend :=
  if (safeFetch r).ok then xLoop (xMatches (safeFetch r).data.data) [] [] else []

/-! ### Hacker News keyword derivation (v7 `fetchHN` lines 153-185,
v2 `fetchHackerNews` lines 549-586) -/

/-- v7: the keyword is the item title, except that a title longer than 60
characters is truncated to its first 57 characters plus a three-dot
ellipsis. -/
def hnKeywordV7 (title : String) : String :=
  if 60 < title.length then String.mk (title.data.take 57) ++ "..." else title

/-- v2, first step: `if (keyword.includes(':')) keyword = keyword.split(':')[0].trim()`. -/
def hnColonPart (title : List Char) : List Char :=
  if title.contains ':' then trimChars ((splitChars ':' title).headD []) else title

/-- v2, second step: `if (keyword.split(' ').length > 5)
keyword = keyword.split(' ').slice(0, 4).join(' ')`. -/
def hnKeywordV2 (title : String) : String :=
  if 5 < (splitChars ' ' (hnColonPart title.data)).length then
    String.mk (joinChar ' ' ((splitChars ' ' (hnColonPart title.data)).take 4))
  else
    String.mk (hnColonPart title.data)

/-! ### Renderers (v7 `makeHTML` lines 203-264, `makeJSON` lines 335-350,
`makeIndex` lines 267-332; v2 `generateIndexHTML` lines 780-839)

The templates are transcribed from the source; braces and apostrophes inside
them are written with `\x7b`, `\x7d` and `\x27` escapes, and `${...}`
splices become string concatenation.  `makeJSON` calls
`new Date().toISOString()` and `makeIndex` derives a 14-day cutoff date from
`new Date()`; these two clock reads are hoisted into explicit parameters
(`now`, `cutoff`) — every other input is already an argument of the function
in the source as well. -/

/-- The `colors[t.source]` lookup of `makeHTML`, with the gray `#666` as the
fallback for unknown sources. -/
def sourceColor (src : String) : String :=
  if src = "X" then "#000"
  else if src = "Wiki" then "#1da1f2"
  else if src = "TikTok" then "#ff0050"
  else if src = "HN" then "#f60"
  else "#666"

/-- JavaScript string interpolation of a possibly-absent (`undefined`)
value, which prints as the text `undefined`. -/
def showOpt : Option String → String
  | some s => s
  | none => "undefined"

/-- One entry of the `trends.map((t, i) => ...)` template of `makeHTML`. -/
def htmlItem (i : Nat) (t : Trend) : String :=
  "\n    <div class=\"item\">\n      <span class=\"num\">" ++ toString (i + 1) ++
  "</span>\n      <div class=\"info\">\n        <a class=\"kw\" href=\"" ++ showOpt t.url ++
  "\" target=\"_blank\">" ++ t.keyword ++
  "</a>\n        <span class=\"src\" style=\"background:" ++ sourceColor t.source ++ "\">" ++
  t.source ++ "</span>\n        <span class=\"tr\">" ++ t.traffic ++
  "</span>\n      </div>\n      <div class=\"links\">\n        <a href=\"https://www.google.com/search?q=" ++
  encodeURIComponent t.keyword ++
  "\" target=\"_blank\">G</a>\n        <a href=\"https://trends.google.com/trends/explore?q=" ++
  encodeURIComponent t.keyword ++ "\" target=\"_blank\">T</a>\n      </div>\n    </div>"

/-- The fixed `<style>` block of `makeHTML`. -/
def makeHTMLStyle : String :=
  "    *\x7bmargin:0;padding:0;box-sizing:border-box\x7d\n" ++
  "    body\x7bfont-family:system-ui;background:#111;color:#eee;padding:20px\x7d\n" ++
  "    .box\x7bmax-width:700px;margin:0 auto\x7d\n" ++
  "    h1\x7bfont-size:18px;color:#0f8;margin-bottom:10px;text-align:center\x7d\n" ++
  "    .stats\x7btext-align:center;color:#666;font-size:12px;margin-bottom:20px\x7d\n" ++
  "    .item\x7bdisplay:flex;align-items:center;gap:10px;padding:8px 10px;background:#1a1a1a;margin-bottom:4px;border-radius:4px\x7d\n" ++
  "    .item:hover\x7bbackground:#222\x7d\n" ++
  "    .num\x7bcolor:#f80;font-weight:bold;min-width:28px;font-size:12px\x7d\n" ++
  "    .info\x7bflex:1;overflow:hidden\x7d\n" ++
  "    .kw\x7bfont-weight:600;font-size:14px;color:#eee;text-decoration:none\x7d\n" ++
  "    .kw:hover\x7bcolor:#0f8;text-decoration:underline\x7d\n" ++
  "    .src\x7bfont-size:10px;padding:1px 4px;border-radius:2px;color:#fff;margin-left:6px\x7d\n" ++
  "    .tr\x7bfont-size:11px;color:#888;margin-left:6px\x7d\n" ++
  "    .links\x7bdisplay:flex;gap:4px\x7d\n" ++
  "    .links a\x7bcolor:#08f;text-decoration:none;padding:2px 6px;border:1px solid #333;border-radius:3px;font-size:11px\x7d\n" ++
  "    .links a:hover\x7bbackground:#222\x7d\n" ++
  "    .nav\x7bmargin-top:20px;text-align:center\x7d\n" ++
  "    .nav a\x7bcolor:#08f;text-decoration:none;margin:0 10px\x7d"

/-- the v7 `makeHTML(trends, ts)`: a pure function of the record list and the
time bucket. -/
def makeHTML (trends : List Trend) (ts : TS) : String :=
  "<!DOCTYPE html>\n<html>\n<head>\n  <meta charset=\"UTF-8\">\n" ++
  "  <meta name=\"viewport\" content=\"width=device-width,initial-scale=1\">\n" ++
  "  <title>Trends " ++ ts.full ++ "</title>\n  <style>\n" ++ makeHTMLStyle ++
  "\n  </style>\n</head>\n<body>\n  <div class=\"box\">\n    <h1>TRENDS " ++ ts.date ++
  " " ++ ts.slot ++ ":00 UTC</h1>\n    <div class=\"stats\">" ++ toString trends.length ++
  " keywords | X + Wiki + TikTok + HN</div>\n    " ++
  String.join ((trends.enum).map fun p => htmlItem p.1 p.2) ++
  "\n    <div class=\"nav\">\n      <a href=\"./\">Archive</a>\n      <a href=\"../\">Home</a>\n" ++
  "    </div>\n  </div>\n</body>\n</html>"

/-- One character of a JSON string literal as `JSON.stringify` escapes it. -/
def jsonEscapeChar (c : Char) : List Char :=
  if c.toNat = 34 then [Char.ofNat 92, Char.ofNat 34]
  else if c.toNat = 92 then [Char.ofNat 92, Char.ofNat 92]
  else if c.toNat = 8 then [Char.ofNat 92, 'b']
  else if c.toNat = 9 then [Char.ofNat 92, 't']
  else if c.toNat = 10 then [Char.ofNat 92, 'n']
  else if c.toNat = 12 then [Char.ofNat 92, 'f']
  else if c.toNat = 13 then [Char.ofNat 92, 'r']
  else if c.toNat < 32 then
    [Char.ofNat 92, 'u', '0', '0', hexDigitLower (c.toNat / 16), hexDigitLower (c.toNat % 16)]
  else [c]

/-- A JSON string literal. -/
def jsonStr (s : String) : String :=
  "\"" ++ String.mk (s.data.flatMap jsonEscapeChar) ++ "\""

/-- One element of the `trends` array of `makeJSON`, as `JSON.stringify`
lays it out with two-space indentation at depth 2; a record without a `url`
(`undefined`) has the property omitted. -/
def jsonTrendObj (t : Trend) : String :=
  "    \x7b\n      \"keyword\": " ++ jsonStr t.keyword ++
  ",\n      \"traffic\": " ++ jsonStr t.traffic ++
  ",\n      \"source\": " ++ jsonStr t.source ++
  (match t.url with
   | some u => ",\n      \"url\": " ++ jsonStr u
   | none => "") ++
  "\n    \x7d"

/-- the v7 `makeJSON(trends, ts)` — `JSON.stringify(..., null, 2)` of the
document object.  The `generated` field is `new Date().toISOString()`; that
clock read is the explicit `now` parameter. -/
def makeJSON (trends : List Trend) (ts : TS) (now : String) : String :=
  "\x7b\n  \"timestamp\": " ++ jsonStr ts.full ++
  ",\n  \"date\": " ++ jsonStr ts.date ++
  ",\n  \"slot\": " ++ jsonStr ts.slot ++
  ",\n  \"generated\": " ++ jsonStr now ++
  ",\n  \"count\": " ++ toString trends.length ++
  ",\n  \"sources\": [\n    \"X\",\n    \"Wiki\",\n    \"TikTok\",\n    \"HN\"\n  ]" ++
  ",\n  \"trends\": " ++
  (if trends.isEmpty then "[]"
   else "[\n" ++ String.intercalate ",\n" (trends.map jsonTrendObj) ++ "\n  ]") ++
  "\n\x7d"

/-- Building of the `byDate` object: append `f` to the entry for `date`, or
add a new entry at the end (JavaScript object keys of this shape preserve
insertion order). -/
def insertByDate : List (String × List String) → String → String → List (String × List String)
  | [], date, f => [(date, [f])]
  | (d, fs) :: rest, date, f =>
    if d = date then (d, fs ++ [f]) :: rest
    else (d, fs) :: insertByDate rest date f

/-- The grouping loop of `makeIndex`: skip files not ending in `.html` and
the index file itself, group the rest under `f.slice(0, 10)`. -/
def byDateGroups (files : List String) : List (String × List String) :=
  files.foldl
    (fun acc f =>
      if ¬ jsEndsWith f ".html" = true ∨ f = "index.html" then acc
      else insertByDate acc (sliceStr f 0 10) f)
    []

/-- JavaScript string comparison: lexicographic on the code units (here,
code points). -/
def strLt : List Char → List Char → Bool
  | [], [] => false
  | [], _ :: _ => true
  | _ :: _, [] => false
  | a :: as, b :: bs =>
    if a.toNat < b.toNat then true
    else if b.toNat < a.toNat then false
    else strLt as bs

/-- Stable insertion of `x` into a descending-sorted list: `x` goes before
the first element not greater than it. -/
def insertDesc (x : String) : List String → List String
  | [] => [x]
  | y :: ys => if strLt x.data y.data then y :: insertDesc x ys else x :: y :: ys

/-- `arr.sort((a, b) => b.localeCompare(a))`: a stable descending sort.  For
the ASCII date/filename strings this sorts, the default-locale collation
coincides with code-point order, which is how the comparator is modelled. -/
def sortDesc : List String → List String
  | [] => []
  | x :: xs => insertDesc x (sortDesc xs)

/-- One slot link of `makeIndex`: `f.slice(11, 13)`, with `00` as the
fallback when that slice is empty, wrapped in the anchor. -/
def slotLink (f : String) : String :=
  "<a href=\"./" ++ f ++ "\">" ++
  (if sliceStr f 11 13 = "" then "00" else sliceStr f 11 13) ++ ":00</a>"

/-- One `dayBlock` of `makeIndex`: the date label and the slot links of that day,
files sorted descending. -/
def dayBlock (groups : List (String × List String)) (date : String) : String :=
  "<div class=\"day\"><span class=\"date\">" ++ date ++ "</span><div class=\"slots\">" ++
  String.join ((sortDesc ((groups.find? fun p => p.1 == date).elim [] Prod.snd)).map slotLink) ++
  "</div></div>"

/-- The accumulation of `recentHTML` and `olderHTML` over the dates in
descending order: a day at or after the cutoff date goes to the first
component, an older day to the second (JavaScript `date >= cutoff` on
strings is code-point comparison). -/
def recentOlder (groups : List (String × List String)) (cutoff : String) : String × String :=
  (sortDesc (groups.map Prod.fst)).foldl
    (fun p date =>
      if strLt date.data cutoff.data then (p.1, p.2 ++ dayBlock groups date)
      else (p.1 ++ dayBlock groups date, p.2))
    ("", "")

/-- The fixed `<style>` block of `makeIndex`. -/
def makeIndexStyle : String :=
  "    *\x7bmargin:0;padding:0;box-sizing:border-box\x7d\n" ++
  "    body\x7bfont-family:system-ui;background:#111;color:#eee;padding:40px 20px\x7d\n" ++
  "    .box\x7bmax-width:500px;margin:0 auto\x7d\n" ++
  "    h1\x7bfont-size:16px;color:#0f8;margin-bottom:20px;text-align:center\x7d\n" ++
  "    .day\x7bbackground:#1a1a1a;margin-bottom:6px;border-radius:4px;padding:10px 12px;display:flex;align-items:center;gap:12px\x7d\n" ++
  "    .date\x7bcolor:#0f8;font-weight:bold;min-width:100px\x7d\n" ++
  "    .slots\x7bdisplay:flex;gap:6px;flex-wrap:wrap\x7d\n" ++
  "    .slots a\x7bcolor:#888;text-decoration:none;padding:4px 8px;background:#222;border-radius:3px;font-size:12px\x7d\n" ++
  "    .slots a:hover\x7bcolor:#fff;background:#333\x7d\n" ++
  "    .older\x7bmargin-top:20px\x7d\n" ++
  "    .older summary\x7bcolor:#666;cursor:pointer;padding:10px;text-align:center\x7d\n" ++
  "    .older summary:hover\x7bcolor:#888\x7d\n" ++
  "    .older-content\x7bmargin-top:10px\x7d\n" ++
  "    .back\x7bdisplay:block;margin-top:20px;text-align:center;color:#08f;text-decoration:none\x7d"

/-- the v7 `makeIndex(files)`.  The source computes the 14-day cutoff date from
`new Date()`; that clock read is the explicit `cutoff` parameter here, the
directory listing is `files`. -/
def makeIndex (files : List String) (cutoff : String) : String :=
  "<!DOCTYPE html>\n<html>\n<head>\n  <meta charset=\"UTF-8\">\n" ++
  "  <meta name=\"viewport\" content=\"width=device-width,initial-scale=1\">\n" ++
  "  <title>Trends Archive</title>\n  <style>\n" ++ makeIndexStyle ++
  "\n  </style>\n</head>\n<body>\n  <div class=\"box\">\n    <h1>TRENDS ARCHIVE</h1>\n    " ++
  (recentOlder (byDateGroups files) cutoff).1 ++ "\n    " ++
  (if (recentOlder (byDateGroups files) cutoff).2 = "" then ""
   else
     "<details class=\"older\"><summary>Older entries...</summary><div class=\"older-content\">" ++
     (recentOlder (byDateGroups files) cutoff).2 ++ "</div></details>") ++
  "\n    <a href=\"../\" class=\"back\">← Home</a>\n  </div>\n</body>\n</html>"

/-- The fixed `<style>` block of the v2 `generateIndexHTML`. -/
def generateIndexStyle : String :=
  "        @import url(\x27https://fonts.googleapis.com/css2?family=Press+Start+2P&display=swap\x27);\n" ++
  "        * \x7b margin: 0; padding: 0; box-sizing: border-box; \x7d\n" ++
  "        body \x7b\n            font-family: \x27Press Start 2P\x27, cursive;\n" ++
  "            min-height: 100vh;\n            background: #0f1119;\n" ++
  "            color: #f4f4f4;\n            display: flex;\n" ++
  "            justify-content: center;\n            align-items: center;\n" ++
  "            padding: 40px 20px;\n        \x7d\n" ++
  "        .container \x7b text-align: center; max-width: 500px; \x7d\n" ++
  "        h1 \x7b font-size: 0.8rem; color: #2ecc71; margin-bottom: 25px; \x7d\n" ++
  "        .days \x7b display: flex; flex-direction: column; gap: 8px; \x7d\n" ++
  "        .day-link \x7b\n            display: block;\n            padding: 12px 16px;\n" ++
  "            background: #1a1d2e;\n            border: 2px solid #2a2d42;\n" ++
  "            border-radius: 5px;\n            color: #f4f4f4;\n" ++
  "            text-decoration: none;\n            font-size: 0.55rem;\n        \x7d\n" ++
  "        .day-link:hover \x7b border-color: #2ecc71; color: #2ecc71; \x7d\n" ++
  "        .back-link \x7b\n            display: inline-block;\n            margin-top: 25px;\n" ++
  "            font-size: 0.45rem;\n            color: #5fcde4;\n" ++
  "            text-decoration: none;\n        \x7d"

/-- the v2 `generateIndexHTML(files)`: sort descending, keep the first 30,
strip the first `.html` from each label — a pure function of the listing. -/
def generateIndexHTML (files : List String) : String :=
  "<!DOCTYPE html>\n<html lang=\"en\">\n<head>\n    <meta charset=\"UTF-8\">\n" ++
  "    <meta name=\"viewport\" content=\"width=device-width, initial-scale=1.0\">\n" ++
  "    <title>Rising Keywords Archive</title>\n    <style>\n" ++ generateIndexStyle ++
  "\n    </style>\n</head>\n<body>\n    <div class=\"container\">\n" ++
  "        <h1>KEYWORDS ARCHIVE</h1>\n        <div class=\"days\">\n" ++
  String.intercalate "\n"
    (((sortDesc files).take 30).map fun f =>
      "            <a href=\"./" ++ f ++ "\" class=\"day-link\">" ++
      removeFirst f ".html" ++ "</a>") ++
  "\n        </div>\n        <a href=\"../\" class=\"back-link\">← HOME</a>\n" ++
  "    </div>\n</body>\n</html>"

/-! ### Claim C5 -/

set_option maxRecDepth 1000000 in
/-- C5 counterexample: `makeIndex` is not a pure function of the directory
listing — it reads the clock to compute the 14-day cutoff.  On the identical
one-file listing, a run whose cutoff date is on or before the date of the file
renders the day in the recent section, while a run 19 days later renders it
inside the collapsed `<details>` older section: the two index documents are
not byte-identical. -/
theorem makeIndex_depends_on_clock :
    makeIndex ["2024-01-01-00.html"] "2024-01-01" ≠
    makeIndex ["2024-01-01-00.html"] "2024-01-20" := by
  have h1 : (makeIndex ["2024-01-01-00.html"] "2024-01-01").length = 1331 := by decide
  have h2 : (makeIndex ["2024-01-01-00.html"] "2024-01-20").length = 1432 := by decide
  intro h
  rw [h, h2] at h1
  exact absurd h1 (by decide)

/-- C5 (amended): the v2 `generateIndexHTML` is a pure function of the
directory listing alone — two runs on the same listing are byte-identical;
the v7 `makeIndex` is a pure function of the listing together with the
clock-derived 14-day cutoff date — two runs with the same listing and the
same cutoff date are byte-identical, but runs on different dates can differ. -/
theorem indexer_determinism :
    (∀ (files : List String) (c c' : String), c = c' →
      makeIndex files c = makeIndex files c') ∧
    (∀ (files files' : List String), files = files' →
      generateIndexHTML files = generateIndexHTML files') :=
  ⟨fun _ _ _ h => by rw [h], fun _ _ h => by rw [h]⟩

theorem indexer_determinism_witness :
    makeIndex ["2024-01-01-00.html"] "2024-01-10" =
    makeIndex ["2024-01-01-00.html"] "2024-01-10" :=
  indexer_determinism.1 ["2024-01-01-00.html"] "2024-01-10" "2024-01-10" rfl

/-! ### Claim C6 -/

/-- A concrete time bucket for the renderer counterexample. -/
def tsExample : TS := { date := "2024-01-01", slot := "00", full := "2024-01-01-00" }

set_option maxRecDepth 100000 in
/-- C6 counterexample: `makeJSON` embeds `new Date().toISOString()` as the
`generated` field, so two renderings of the same record list and the same
time bucket at different instants produce different JSON documents — the
JSON renderer is not a function of the record list and bucket alone. -/
theorem makeJSON_depends_on_clock :
    makeJSON [] tsExample "2024-01-01T00:00:00.000Z" ≠
    makeJSON [] tsExample "2024-01-01T04:00:00.000Z" := by
  decide

/-- C6 (amended): `makeHTML` is deterministic in the record list and the time
bucket; `makeJSON` is deterministic only in the record list, the time bucket
and the generation instant, since its output embeds the clock reading. -/
theorem renderer_determinism :
    (∀ (trends : List Trend) (ts ts' : TS), ts = ts' →
      makeHTML trends ts = makeHTML trends ts') ∧
    (∀ (trends : List Trend) (ts : TS) (now now' : String), now = now' →
      makeJSON trends ts now = makeJSON trends ts now') :=
  ⟨fun _ _ _ h => by rw [h], fun _ _ _ _ h => by rw [h]⟩

theorem renderer_determinism_witness :
    makeHTML [] tsExample = makeHTML [] tsExample :=
  renderer_determinism.1 [] tsExample tsExample rfl

/-! ### Claim C7 -/

set_option maxRecDepth 100000 in
/-- C7 counterexample: a 404 response is not a failure to either fetcher —
neither `safeFetch` nor `fetchURL` inspects the status code — so the body of
a non-2xx response is parsed like any success and here contributes one
record, where the claim demands zero. -/
theorem non2xx_contributes_records :
    (fetchXTrends
      (NetResult.response 404 "<a href=\"/united-states/trend/x\">hello</a>")).length = 1 := by
  decide

/-- C7 (amended): on a network error or a timeout the fetchers return the
empty list, and as total functions of the settled outcome they never
propagate an error to the caller (the v7 `safeFetch` resolves `{ok: false}`,
the v2 fetchers catch the rejection of `fetchURL`); a malformed body simply
yields no matches; but the HTTP status code is ignored, so a non-2xx
response is processed exactly like a 200 response with the same body. -/
theorem fetcher_failure_isolation :
    fetchXTrends NetResult.netError = [] ∧ fetchXTrends NetResult.timeout = [] ∧
    fetchGoogleTrendsRSS NetResult.netError = [] ∧
    fetchGoogleTrendsRSS NetResult.timeout = [] ∧
    (∀ (status status' : Nat) (body : String),
      fetchXTrends (NetResult.response status body) =
        fetchXTrends (NetResult.response status' body)) ∧
    (∀ (status status' : Nat) (body : String),
      fetchGoogleTrendsRSS (NetResult.response status body) =
        fetchGoogleTrendsRSS (NetResult.response status' body)) :=
  ⟨rfl, rfl, rfl, rfl, fun _ _ _ => rfl, fun _ _ _ => rfl⟩

/-! ### Claim C8 -/

theorem fetchXTrends_response (status : Nat) (body : String) :
    fetchXTrends (NetResult.response status body) = xLoop (xMatches body.data) [] [] := rfl

theorem xLoop_length_le :
    ∀ (ms : List (List Char)) (seen : List String) (acc : List Trend),
      acc.length < 50 → (xLoop ms seen acc).length ≤ 50 := by
  intro ms
  induction ms with
  | nil =>
    intro seen acc h
    simp only [xLoop]
    omega
  | cons m rest ih =>
    intro seen acc h
    simp only [xLoop]
    by_cases h1 : trimChars m = ([] : List Char) ∨ (trimChars m).length < 2 ∨
        String.mk ((trimChars m).map Char.toLower) ∈ seen
    · rw [if_pos h1]
      exact ih _ _ h
    · rw [if_neg h1]
      by_cases h2 : String.mk ((trimChars m).map Char.toLower) ∈
          (["twitter", "trending", "trends"] : List String)
      · rw [if_pos h2]
        exact ih _ _ h
      · rw [if_neg h2]
        by_cases h3 : 50 ≤ (acc ++ [xRecord m]).length
        · rw [if_pos h3]
          simp only [List.length_append, List.length_cons, List.length_nil]
          omega
        · rw [if_neg h3]
          refine ih _ _ ?_
          simp only [List.length_append, List.length_cons, List.length_nil] at h3 ⊢
          omega

/-- C8 (amended): the v7 `fetchXTrends` breaks out of its extraction loop once
50 records are collected, so for every settled network outcome its output has
at most 50 records; the v2 `fetchGoogleTrendsRSS`, by contrast, has no cap at
all (see the counterexample, which exhibits a response yielding 51 records). -/
theorem fetchXTrends_capped (r : NetResult) : (fetchXTrends r).length ≤ 50 := by
  cases r with
  | netError => simp [fetchXTrends, safeFetch]
  | timeout => simp [fetchXTrends, safeFetch]
  | response status body =>
    rw [fetchXTrends_response]
    exact xLoop_length_le _ [] [] (by simp)

/-- A response body consisting of 51 RSS items. -/
def rssBody51 : String :=
  String.join (List.replicate 51 "<item><title>a</title></item>")

set_option maxRecDepth 2000000 in
/-- C8 counterexample: `fetchGoogleTrendsRSS` pushes one record per RSS
`<item>` of the response body without any cap, so a body with 51 items
yields 51 records — above every per-source cap in the claimed 10-50 range. -/
theorem fetchGoogleTrendsRSS_uncapped :
    (fetchGoogleTrendsRSS (NetResult.response 200 rssBody51)).length = 51 := by
  decide

/-! ### Claim C9 -/

/-- C9 counterexample: neither Hacker News keyword derivation strips a
leading bracketed prefix — the title `[Discussion] Foo` is below both
length thresholds, so it is passed through unchanged instead of becoming
`Foo` as the claim requires. -/
theorem hn_no_bracket_strip :
    hnKeywordV7 "[Discussion] Foo" ≠ "Foo" ∧ hnKeywordV2 "[Discussion] Foo" ≠ "Foo" := by
  decide

/-- C9 (amended): the Hacker News keyword derivation never strips bracketed
prefixes.  v7 passes any title of at most 60 characters through unchanged
(longer ones are truncated to 57 characters plus an ellipsis); v2 only
splits at a colon and caps at four words; on `[Discussion] Foo` both return
the title verbatim, bracket included. -/
theorem hn_keyword_no_prefix_strip :
    (∀ title : String, title.length ≤ 60 → hnKeywordV7 title = title) ∧
    hnKeywordV7 "[Discussion] Foo" = "[Discussion] Foo" ∧
    hnKeywordV2 "[Discussion] Foo" = "[Discussion] Foo" := by
  refine ⟨fun title h => ?_, by decide, by decide⟩
  unfold hnKeywordV7
  rw [if_neg (by omega)]

theorem hn_keyword_no_prefix_strip_witness :
    hnKeywordV7 "abc" = "abc" :=
  hn_keyword_no_prefix_strip.1 "abc" (by decide)
